import Mathlib

/-!
Shallow embedding of `pyatv/conf.py`: an Apple TV configuration holding a
registry of protocol services, with supersession and preference logic.
Python dictionaries are modelled as association lists with CPython update
semantics (replace in place, append new keys at the end); Python truthiness
of optional credential strings is made explicit.
-/

namespace PyatvConf

/-- Modelled from the spec: the fixed enumeration of supported protocol
identifiers. They are imported from `pyatv.const` (`PROTOCOL_MRP`,
`PROTOCOL_DMAP`, `PROTOCOL_AIRPLAY`), a module not present under `src/`;
the spec describes them as "a fixed enumeration of supported protocol
identifiers", so they are three distinct enumerated values. -/
inductive Protocol where
  | mrp
  | dmap
  | airplay
  deriving DecidableEq, Repr

def PROTOCOL_MRP : Protocol := Protocol.mrp
def PROTOCOL_DMAP : Protocol := Protocol.dmap
def PROTOCOL_AIRPLAY : Protocol := Protocol.airplay

/-- `_SUPPORTED_PROTOCOLS = [PROTOCOL_MRP, PROTOCOL_DMAP]` -/
def SUPPORTED_PROTOCOLS : List Protocol := [PROTOCOL_MRP, PROTOCOL_DMAP]

/-- The closed set of service classes of `conf.py`: `BaseService` (which can
be instantiated with any protocol), `DmapService` (protocol fixed to DMAP by
its constructor, carrying an optional `login_id`), `MrpService` (protocol
fixed to MRP) and `AirPlayService` (protocol fixed to AIRPLAY). -/
inductive Service where
  | base (protocol : Protocol) (port : Nat)
  | dmap (login_id : Option String) (port : Nat)
  | mrp (port : Nat)
  | airplay (port : Nat)
  deriving DecidableEq, Repr

/-- The `protocol` attribute set by each `__init__` via
`super().__init__(...)`. -/
def Service.protocol : Service → Protocol
  | .base p _ => p
  | .dmap _ _ => PROTOCOL_DMAP
  | .mrp _ => PROTOCOL_MRP
  | .airplay _ => PROTOCOL_AIRPLAY

/-- The `port` attribute. -/
def Service.port : Service → Nat
  | .base _ port => port
  | .dmap _ port => port
  | .mrp port => port
  | .airplay port => port

/-- Python truthiness of an optional string (`None` and `''` are falsy). -/
def strTruthy : Option String → Bool
  | none => false
  | some s => !(s == "")

/-- `is_usable`: `BaseService` (and the non-overriding `AirPlayService`)
returns `False`; `DmapService` returns `self.login_id is not None`;
`MrpService` returns `True`. -/
def Service.is_usable : Service → Bool
  | .base _ _ => false
  | .dmap login_id _ => login_id.isSome
  | .mrp _ => true
  | .airplay _ => false

/-- `superseeded_by`: the base implementation returns `False`; only
`DmapService` overrides it. In the override, `not other_service` is always
false (service objects are truthy), the class test selects exactly the
`dmap` constructor, and the protocol test between two `DmapService`
instances always passes (both are `PROTOCOL_DMAP`); the port test and the
final `not self.login_id and other_service.login_id` (Python truthiness on
the optional strings) remain. The result records the truthiness of the
value `add_service` branches on. -/
def Service.superseeded_by : Service → Service → Bool
  | .dmap login_id port, .dmap other_login other_port =>
      if other_port != port then false
      else !(strTruthy login_id) && strTruthy other_login
  | _, _ => false

/-- `DmapService.__init__(login_id, port=None)`: the stored port is
`port or 3689`, i.e. the default when the argument is `None` or falsy
(`0`). -/
def DmapService.init (login_id : Option String) (port : Option Nat) : Service :=
  Service.dmap login_id (match port with
    | none => 3689
    | some p => if p == 0 then 3689 else p)

/-- `MrpService.__init__(port)`. -/
def MrpService.init (port : Nat) : Service := Service.mrp port

/-- `AirPlayService.__init__(port)`. -/
def AirPlayService.init (port : Nat) : Service := Service.airplay port

/-- `BaseService.__init__(protocol, port)`. -/
def BaseService.init (protocol : Protocol) (port : Nat) : Service :=
  Service.base protocol port

/-- CPython dict lookup `d.get(k, None)` on the association-list model. -/
def dictGet (d : List (Protocol × Service)) (k : Protocol) : Option Service :=
  match d with
  | [] => none
  | (k1, v) :: rest => if k1 = k then some v else dictGet rest k

/-- CPython dict assignment `d[k] = v`: replace in place when the key is
present, else append. -/
def dictSet (d : List (Protocol × Service)) (k : Protocol) (v : Service) :
    List (Protocol × Service) :=
  match d with
  | [] => [(k, v)]
  | (k1, v1) :: rest =>
      if k1 = k then (k, v) :: rest else (k1, v1) :: dictSet rest k v

/-- `AppleTV`: `address`, `name`, the `_services` dict and the
`_supported_protocols` preference list. -/
structure AppleTV where
  address : String
  name : String
  services : List (Protocol × Service)
  supported_protocols : List Protocol
  deriving DecidableEq, Repr

/-- `AppleTV.__init__(address, name, **kwargs)`: empty registry,
`_supported_protocols = kwargs.get('supported_services',
_SUPPORTED_PROTOCOLS)`. -/
def AppleTV.init (address name : String) (supported_services : Option (List Protocol)) :
    AppleTV :=
  { address := address, name := name, services := [],
    supported_protocols := supported_services.getD SUPPORTED_PROTOCOLS }

/-- `add_service(service)`: if a service is registered under
`service.protocol` and it is not superseded by the candidate, return with
the state unchanged; otherwise store the candidate under
`service.protocol`. -/
def AppleTV.add_service (atv : AppleTV) (service : Service) : AppleTV :=
  match dictGet atv.services service.protocol with
  | some existing =>
      if !(existing.superseeded_by service) then atv
      else { atv with services := dictSet atv.services service.protocol service }
  | none => { atv with services := dictSet atv.services service.protocol service }

/-- `get_service(protocol)`: `self._services.get(protocol, None)`. -/
def AppleTV.get_service (atv : AppleTV) (protocol : Protocol) : Option Service :=
  dictGet atv.services protocol

/-- `usable_service()`: walk `_supported_protocols` in order, return the
first registered service whose `is_usable()` holds, else `None`. -/
def usableLoop (services : List (Protocol × Service)) : List Protocol → Option Service
  | [] => none
  | p :: rest =>
      match dictGet services p with
      | some s => if s.is_usable then some s else usableLoop services rest
      | none => usableLoop services rest

def AppleTV.usable_service (atv : AppleTV) : Option Service :=
  usableLoop atv.services atv.supported_protocols

/-- `preferred_service()`: walk `_supported_protocols` in order, return the
first registered service regardless of usability, else `None`. -/
def preferredLoop (services : List (Protocol × Service)) : List Protocol → Option Service
  | [] => none
  | p :: rest =>
      match dictGet services p with
      | some s => some s
      | none => preferredLoop services rest

def AppleTV.preferred_service (atv : AppleTV) : Option Service :=
  preferredLoop atv.services atv.supported_protocols

/-- `is_usable()` on the device:
`any([x.is_usable() for x in self._services.values()])`. -/
def AppleTV.is_usable (atv : AppleTV) : Bool :=
  atv.services.any (fun kv => kv.2.is_usable)

/-- `airplay_service()`: return the registered AirPlay service if present,
else a fresh `AirPlayService(7000)`. The method body never assigns to any
attribute of `self`, so its effect on the device state is the identity; the
returned pair is (result, post-state). -/
def AppleTV.airplay_service (atv : AppleTV) : Service × AppleTV :=
  match dictGet atv.services PROTOCOL_AIRPLAY with
  | some s => (s, atv)
  | none => (AirPlayService.init 7000, atv)

/-- `__eq__`: after the `isinstance` guard (always satisfied between two
`AppleTV` values), compare only the `address` attributes. The stray debug
`print` has no effect on the returned value. -/
def AppleTV.eq (self other : AppleTV) : Bool :=
  self.address == other.address

/-! ### Helper lemmas on the dictionary model and `add_service` -/

theorem dictGet_dictSet_self (d : List (Protocol × Service)) (k : Protocol) (v : Service) :
    dictGet (dictSet d k v) k = some v := by
  induction d with
  | nil => simp [dictSet, dictGet]
  | cons kv rest ih =>
      obtain ⟨k1, v1⟩ := kv
      by_cases h : k1 = k
      · simp [dictSet, dictGet, h]
      · simp [dictSet, dictGet, h, ih]

theorem dictGet_dictSet_ne (d : List (Protocol × Service)) (k k2 : Protocol) (v : Service)
    (h : k2 ≠ k) : dictGet (dictSet d k v) k2 = dictGet d k2 := by
  induction d with
  | nil => simp [dictSet, dictGet, Ne.symm h]
  | cons kv rest ih =>
      obtain ⟨k1, v1⟩ := kv
      by_cases h1 : k1 = k
      · subst h1
        simp [dictSet, dictGet, Ne.symm h]
      · simp [dictSet, dictGet, h1, ih]

theorem add_service_not_registered (atv : AppleTV) (s : Service)
    (h : dictGet atv.services s.protocol = none) :
    atv.add_service s = { atv with services := dictSet atv.services s.protocol s } := by
  unfold AppleTV.add_service
  rw [h]

theorem add_service_registered (atv : AppleTV) (s existing : Service)
    (h : dictGet atv.services s.protocol = some existing) :
    atv.add_service s =
      if existing.superseeded_by s then
        { atv with services := dictSet atv.services s.protocol s }
      else atv := by
  unfold AppleTV.add_service
  rw [h]
  by_cases hs : existing.superseeded_by s <;> simp [hs]

theorem dmap_double_add (atv : AppleTV) (l1 l2 : Option String) (p : Nat)
    (h : atv.get_service PROTOCOL_DMAP = none) :
    ((atv.add_service (Service.dmap l1 p)).add_service (Service.dmap l2 p)).get_service
        PROTOCOL_DMAP =
      some (if !(strTruthy l1) && strTruthy l2 then Service.dmap l2 p else Service.dmap l1 p) := by
  have e1 := add_service_not_registered atv (Service.dmap l1 p) h
  have h2 : dictGet ((atv.add_service (Service.dmap l1 p)).services)
      (Service.dmap l2 p).protocol = some (Service.dmap l1 p) := by
    rw [e1]
    exact dictGet_dictSet_self atv.services PROTOCOL_DMAP (Service.dmap l1 p)
  have e2 := add_service_registered _ (Service.dmap l2 p) (Service.dmap l1 p) h2
  rw [e2]
  have hsup : (Service.dmap l1 p).superseeded_by (Service.dmap l2 p) =
      (!(strTruthy l1) && strTruthy l2) := by
    simp [Service.superseeded_by]
  rw [hsup]
  by_cases hc : !(strTruthy l1) && strTruthy l2
  · simp only [hc, if_true]
    unfold AppleTV.get_service
    exact dictGet_dictSet_self _ PROTOCOL_DMAP _
  · simp only [hc, if_false, Bool.false_eq_true]
    rw [e1]
    unfold AppleTV.get_service
    exact dictGet_dictSet_self _ PROTOCOL_DMAP _

/-- Spec-side counterpart of `usable_service`, written from the spec's
words: "iterate `preferenceOrder` in order; return the first Service that
is both present and `isUsable()`; if none qualify, return absent". -/
def specFirstUsable (atv : AppleTV) : Option Service :=
  (atv.supported_protocols.filterMap (fun p =>
    match atv.get_service p with
    | some s => if s.is_usable then some s else none
    | none => none)).head?

/-- Spec-side counterpart of `preferred_service`, written from the spec's
words: "iterate `preferenceOrder` in order; return the first Service that
is present, regardless of usability; absent if none registered". -/
def specFirstRegistered (atv : AppleTV) : Option Service :=
  (atv.supported_protocols.filterMap (fun p => atv.get_service p)).head?

theorem usableLoop_eq_filterMap (services : List (Protocol × Service)) (L : List Protocol) :
    usableLoop services L = (L.filterMap (fun p =>
      match dictGet services p with
      | some s => if s.is_usable then some s else none
      | none => none)).head? := by
  induction L with
  | nil => rfl
  | cons p rest ih =>
      unfold usableLoop
      cases hd : dictGet services p with
      | none => simp [List.filterMap_cons, hd, ih]
      | some s =>
          by_cases hu : s.is_usable
          · simp [List.filterMap_cons, hd, hu]
          · simp [List.filterMap_cons, hd, hu, ih]

theorem preferredLoop_eq_filterMap (services : List (Protocol × Service)) (L : List Protocol) :
    preferredLoop services L = (L.filterMap (fun p => dictGet services p)).head? := by
  induction L with
  | nil => rfl
  | cons p rest ih =>
      unfold preferredLoop
      cases hd : dictGet services p with
      | none => simp [List.filterMap_cons, hd, ih]
      | some s => simp [List.filterMap_cons, hd]

/-! ### Claim theorems -/

/-- C1: for Variant-A (DMAP) services, `superseeded_by` returns true only
when the candidate is the same variant (class), same protocol and same
port, and the candidate carries a credential while the receiver does not
(credential presence in the sense the supersession test uses: a Python-truthy
`login_id`); consequently registering `DmapService(None, p)` then
`DmapService("x", p)` leaves the DMAP entry with credential `"x"`, and
registering `DmapService("x", p)` then `DmapService(None, p)` also leaves
the DMAP entry with credential `"x"` (no downgrade). -/
theorem dmap_supersession_upgrade_only :
    (∀ (login : Option String) (port : Nat) (other : Service),
      (Service.dmap login port).superseeded_by other = true →
        ∃ ologin, other = Service.dmap ologin port ∧
          other.protocol = (Service.dmap login port).protocol ∧
          strTruthy ologin = true ∧ strTruthy login = false) ∧
    (∀ (atv : AppleTV) (p : Nat), atv.get_service PROTOCOL_DMAP = none →
      ((atv.add_service (DmapService.init none (some p))).add_service
          (DmapService.init (some "x") (some p))).get_service PROTOCOL_DMAP =
        some (DmapService.init (some "x") (some p))) ∧
    (∀ (atv : AppleTV) (p : Nat), atv.get_service PROTOCOL_DMAP = none →
      ((atv.add_service (DmapService.init (some "x") (some p))).add_service
          (DmapService.init none (some p))).get_service PROTOCOL_DMAP =
        some (DmapService.init (some "x") (some p))) := by
  refine ⟨?_, ?_, ?_⟩
  · intro login port other h
    cases other with
    | base pr po => simp [Service.superseeded_by] at h
    | mrp po => simp [Service.superseeded_by] at h
    | airplay po => simp [Service.superseeded_by] at h
    | dmap ol op =>
        simp [Service.superseeded_by] at h
        obtain ⟨hop, hl, hol⟩ := h
        exact ⟨ol, by rw [hop], rfl, hol, hl⟩
  · intro atv p h
    have := dmap_double_add atv none (some "x")
      (if p == 0 then 3689 else p) h
    simpa [DmapService.init, strTruthy] using this
  · intro atv p h
    have := dmap_double_add atv (some "x") none
      (if p == 0 then 3689 else p) h
    simpa [DmapService.init, strTruthy] using this

/-- Witness for C1 at concrete inputs: a fresh device, port 1000. -/
theorem dmap_supersession_upgrade_only_witness :
    ((((AppleTV.init "10.0.0.1" "tv" none).add_service
        (DmapService.init none (some 1000))).add_service
        (DmapService.init (some "x") (some 1000))).get_service PROTOCOL_DMAP =
      some (DmapService.init (some "x") (some 1000))) ∧
    ((((AppleTV.init "10.0.0.1" "tv" none).add_service
        (DmapService.init (some "x") (some 1000))).add_service
        (DmapService.init none (some 1000))).get_service PROTOCOL_DMAP =
      some (DmapService.init (some "x") (some 1000))) ∧
    (Service.dmap none 1000).superseeded_by (Service.dmap (some "x") 1000) = true := by
  refine ⟨?_, ?_, by decide⟩
  · exact dmap_supersession_upgrade_only.2.1 (AppleTV.init "10.0.0.1" "tv" none) 1000 rfl
  · exact dmap_supersession_upgrade_only.2.2 (AppleTV.init "10.0.0.1" "tv" none) 1000 rfl

/-- C2: if no service is registered for `s.protocol`, `add_service s`
registers `s`; if one is registered, `s` replaces it exactly when
`existing.superseeded_by s` is true. -/
theorem add_service_spec (atv : AppleTV) (s : Service) :
    (atv.get_service s.protocol = none →
      (atv.add_service s).get_service s.protocol = some s) ∧
    (∀ existing : Service, atv.get_service s.protocol = some existing →
      (atv.add_service s).get_service s.protocol =
        if existing.superseeded_by s then some s else some existing) := by
  constructor
  · intro h
    rw [add_service_not_registered atv s h]
    unfold AppleTV.get_service
    exact dictGet_dictSet_self _ _ _
  · intro existing h
    rw [add_service_registered atv s existing h]
    by_cases hs : existing.superseeded_by s
    · simp only [hs, if_true]
      unfold AppleTV.get_service
      exact dictGet_dictSet_self _ _ _
    · simp only [hs, if_false, Bool.false_eq_true]
      exact h

/-- Witness for C2: a fresh registration succeeds, and a registered MRP
service is kept when the candidate does not supersede it. -/
theorem add_service_spec_witness :
    (((AppleTV.init "10.0.0.1" "tv" none).add_service
        (MrpService.init 49152)).get_service PROTOCOL_MRP =
      some (MrpService.init 49152)) ∧
    ((((AppleTV.init "10.0.0.1" "tv" none).add_service
        (MrpService.init 49152)).add_service (MrpService.init 50000)).get_service
        PROTOCOL_MRP = some (MrpService.init 49152)) := by
  constructor
  · exact (add_service_spec (AppleTV.init "10.0.0.1" "tv" none) (MrpService.init 49152)).1 rfl
  · have h := (add_service_spec
      ((AppleTV.init "10.0.0.1" "tv" none).add_service (MrpService.init 49152))
      (MrpService.init 50000)).2 (MrpService.init 49152) rfl
    simpa [Service.superseeded_by, MrpService.init] using h

/-- C3: when `existing` is registered for the candidate's protocol (under
which it was stored, so its own `protocol` field matches) and
`existing.superseeded_by candidate` is false, `add_service candidate`
returns the device wholly unchanged: no error value, the existing entry
still there, and every other protocol's entry untouched. -/
theorem add_service_rejected_noop (atv : AppleTV) (candidate existing : Service)
    (hreg : atv.get_service candidate.protocol = some existing)
    (hkey : existing.protocol = candidate.protocol)
    (hsup : existing.superseeded_by candidate = false) :
    atv.add_service candidate = atv ∧
    (atv.add_service candidate).get_service existing.protocol = some existing ∧
    ∀ P : Protocol, (atv.add_service candidate).get_service P = atv.get_service P := by
  have he : atv.add_service candidate = atv := by
    rw [add_service_registered atv candidate existing hreg, hsup]
    simp
  refine ⟨he, ?_, fun P => by rw [he]⟩
  rw [he, hkey]
  exact hreg

/-- Witness for C3: an MRP service never superseded, candidate at another
port is silently discarded. -/
theorem add_service_rejected_noop_witness :
    (((AppleTV.init "10.0.0.1" "tv" none).add_service
        (MrpService.init 49152)).add_service (MrpService.init 50000) =
      (AppleTV.init "10.0.0.1" "tv" none).add_service (MrpService.init 49152)) ∧
    ((((AppleTV.init "10.0.0.1" "tv" none).add_service
        (MrpService.init 49152)).add_service (MrpService.init 50000)).get_service
        PROTOCOL_MRP = some (MrpService.init 49152)) := by
  have h := add_service_rejected_noop
    ((AppleTV.init "10.0.0.1" "tv" none).add_service (MrpService.init 49152))
    (MrpService.init 50000) (MrpService.init 49152) rfl rfl rfl
  exact ⟨h.1, h.2.1⟩

/-- C4: `usable_service` returns the first service along the preference
order that is registered and usable (`none` when no registered service in
the order is usable), and in particular a usable service under the
first-listed protocol wins over any later one. -/
theorem usable_service_spec :
    (∀ atv : AppleTV, atv.usable_service = specFirstUsable atv) ∧
    (∀ atv : AppleTV,
      (∀ p ∈ atv.supported_protocols, ∀ s : Service,
        atv.get_service p = some s → s.is_usable = false) →
      atv.usable_service = none) ∧
    (∀ (atv : AppleTV) (X : Protocol) (rest : List Protocol) (sX : Service),
      atv.supported_protocols = X :: rest →
      atv.get_service X = some sX → sX.is_usable = true →
      atv.usable_service = some sX) := by
  refine ⟨?_, ?_, ?_⟩
  · intro atv
    exact usableLoop_eq_filterMap atv.services atv.supported_protocols
  · intro atv h
    unfold AppleTV.usable_service
    rw [usableLoop_eq_filterMap atv.services atv.supported_protocols]
    have : atv.supported_protocols.filterMap (fun p =>
        match dictGet atv.services p with
        | some s => if s.is_usable then some s else none
        | none => none) = [] := by
      rw [List.filterMap_eq_nil_iff]
      intro p hp
      cases hd : dictGet atv.services p with
      | none => simp
      | some s =>
          have := h p hp s hd
          simp [this]
    rw [this]
    rfl
  · intro atv X rest sX hsupp hget hu
    unfold AppleTV.get_service at hget
    unfold AppleTV.usable_service
    rw [hsupp]
    unfold usableLoop
    rw [hget]
    simp [hu]

/-- Witness for C4: a device with a usable MRP service (higher priority)
and a usable DMAP service (lower priority) yields the MRP one; a fresh
device yields `none`. -/
theorem usable_service_spec_witness :
    ((((AppleTV.init "10.0.0.1" "tv" none).add_service
        (MrpService.init 49152)).add_service
        (DmapService.init (some "x") (some 3689))).usable_service =
      some (MrpService.init 49152)) ∧
    (AppleTV.init "10.0.0.1" "tv" none).usable_service = none := by
  constructor
  · exact usable_service_spec.2.2
      (((AppleTV.init "10.0.0.1" "tv" none).add_service
        (MrpService.init 49152)).add_service
        (DmapService.init (some "x") (some 3689)))
      PROTOCOL_MRP [PROTOCOL_DMAP] (MrpService.init 49152) rfl rfl rfl
  · exact usable_service_spec.2.1 (AppleTV.init "10.0.0.1" "tv" none)
      (by intro p hp s hget; cases hget)

/-- C5: `preferred_service` returns the first registered service along the
preference order regardless of usability (`none` when nothing in the order
is registered); with order `[X, Y]`, an unusable service under `X` and a
usable one under `Y`, `preferred_service` returns the `X` entry while
`usable_service` returns the `Y` entry. -/
theorem preferred_service_spec :
    (∀ atv : AppleTV, atv.preferred_service = specFirstRegistered atv) ∧
    (∀ atv : AppleTV,
      (∀ p ∈ atv.supported_protocols, atv.get_service p = none) →
      atv.preferred_service = none) ∧
    (∀ (atv : AppleTV) (X Y : Protocol) (sX sY : Service),
      atv.supported_protocols = [X, Y] →
      atv.get_service X = some sX → sX.is_usable = false →
      atv.get_service Y = some sY → sY.is_usable = true →
      atv.preferred_service = some sX ∧ atv.usable_service = some sY) := by
  refine ⟨?_, ?_, ?_⟩
  · intro atv
    exact preferredLoop_eq_filterMap atv.services atv.supported_protocols
  · intro atv h
    unfold AppleTV.preferred_service
    rw [preferredLoop_eq_filterMap atv.services atv.supported_protocols]
    have : atv.supported_protocols.filterMap (fun p => dictGet atv.services p) = [] := by
      rw [List.filterMap_eq_nil_iff]
      intro p hp
      exact h p hp
    rw [this]
    rfl
  · intro atv X Y sX sY hsupp hgX huX hgY huY
    unfold AppleTV.get_service at hgX hgY
    constructor
    · unfold AppleTV.preferred_service
      rw [hsupp]
      unfold preferredLoop
      rw [hgX]
    · unfold AppleTV.usable_service
      rw [hsupp]
      unfold usableLoop
      rw [hgX]
      simp only [huX, if_false, Bool.false_eq_true]
      unfold usableLoop
      rw [hgY]
      simp [huY]

/-- Witness for C5: an unusable `BaseService` under MRP and a usable DMAP
service: `preferred_service` picks the MRP entry, `usable_service` the
DMAP one. -/
theorem preferred_service_spec_witness :
    ((((AppleTV.init "10.0.0.1" "tv" none).add_service
        (BaseService.init PROTOCOL_MRP 49152)).add_service
        (DmapService.init (some "x") (some 3689))).preferred_service =
      some (BaseService.init PROTOCOL_MRP 49152)) ∧
    ((((AppleTV.init "10.0.0.1" "tv" none).add_service
        (BaseService.init PROTOCOL_MRP 49152)).add_service
        (DmapService.init (some "x") (some 3689))).usable_service =
      some (DmapService.init (some "x") (some 3689))) :=
  preferred_service_spec.2.2
    (((AppleTV.init "10.0.0.1" "tv" none).add_service
      (BaseService.init PROTOCOL_MRP 49152)).add_service
      (DmapService.init (some "x") (some 3689)))
    PROTOCOL_MRP PROTOCOL_DMAP
    (BaseService.init PROTOCOL_MRP 49152) (DmapService.init (some "x") (some 3689))
    rfl rfl rfl rfl rfl

/-- C6: `airplay_service` returns the registered AirPlay entry when
present; otherwise it returns a freshly constructed `AirPlayService(7000)`
(protocol AIRPLAY, port 7000), and in both cases the device state is
unchanged: AirPlay still unregistered afterwards and every registry entry
untouched. -/
theorem airplay_service_spec :
    (∀ (atv : AppleTV) (s : Service), atv.get_service PROTOCOL_AIRPLAY = some s →
      (atv.airplay_service).1 = s ∧ (atv.airplay_service).2 = atv) ∧
    (∀ atv : AppleTV, atv.get_service PROTOCOL_AIRPLAY = none →
      (atv.airplay_service).1 = AirPlayService.init 7000 ∧
      (atv.airplay_service).1.protocol = PROTOCOL_AIRPLAY ∧
      (atv.airplay_service).1.port = 7000 ∧
      ((atv.airplay_service).2).get_service PROTOCOL_AIRPLAY = none ∧
      ∀ P : Protocol, ((atv.airplay_service).2).get_service P = atv.get_service P) := by
  constructor
  · intro atv s h
    unfold AppleTV.get_service at h
    unfold AppleTV.airplay_service
    rw [h]
    exact ⟨rfl, rfl⟩
  · intro atv h
    unfold AppleTV.get_service at h
    unfold AppleTV.airplay_service
    rw [h]
    exact ⟨rfl, rfl, rfl, h, fun P => rfl⟩

/-- Witness for C6: on a fresh device (no AirPlay service) the default
AirPlay service at port 7000 is returned and AirPlay stays unregistered;
after an AirPlay service is registered, that entry is returned. -/
theorem airplay_service_spec_witness :
    (((AppleTV.init "10.0.0.1" "tv" none).airplay_service).1 =
      AirPlayService.init 7000) ∧
    ((((AppleTV.init "10.0.0.1" "tv" none).airplay_service).2).get_service
      PROTOCOL_AIRPLAY = none) ∧
    ((((AppleTV.init "10.0.0.1" "tv" none).add_service
        (AirPlayService.init 7001)).airplay_service).1 =
      AirPlayService.init 7001) := by
  refine ⟨?_, ?_, ?_⟩
  · exact (airplay_service_spec.2 (AppleTV.init "10.0.0.1" "tv" none) rfl).1
  · exact (airplay_service_spec.2 (AppleTV.init "10.0.0.1" "tv" none) rfl).2.2.2.1
  · exact (airplay_service_spec.1
      ((AppleTV.init "10.0.0.1" "tv" none).add_service (AirPlayService.init 7001))
      (AirPlayService.init 7001) rfl).1

theorem mrp_superseeded_false (p : Nat) (s : Service) :
    (Service.mrp p).superseeded_by s = false := by
  cases s <;> rfl

theorem add_service_get_other (atv : AppleTV) (s : Service) (P : Protocol)
    (h : P ≠ s.protocol) :
    (atv.add_service s).get_service P = atv.get_service P := by
  unfold AppleTV.add_service AppleTV.get_service
  cases hd : dictGet atv.services s.protocol with
  | none => exact dictGet_dictSet_ne _ _ _ _ h
  | some existing =>
      by_cases hs : existing.superseeded_by s
      · simp only [hs, Bool.not_true, Bool.false_eq_true, if_false]
        exact dictGet_dictSet_ne _ _ _ _ h
      · simp [hs]

theorem add_service_preserves_mrp (atv : AppleTV) (s : Service) (p : Nat)
    (h : atv.get_service PROTOCOL_MRP = some (Service.mrp p)) :
    (atv.add_service s).get_service PROTOCOL_MRP = some (Service.mrp p) := by
  by_cases hP : s.protocol = PROTOCOL_MRP
  · have hd : dictGet atv.services s.protocol = some (Service.mrp p) := by
      rw [hP]
      exact h
    rw [add_service_registered atv s (Service.mrp p) hd, mrp_superseeded_false]
    simpa using h
  · rw [add_service_get_other atv s PROTOCOL_MRP (fun he => hP he.symm)]
    exact h

/-- C7: once a Variant-B (`MrpService`) entry is registered for MRP, no
later sequence of `add_service` calls ever replaces it, because `MrpService`
inherits the base `superseeded_by`, which is always false. -/
theorem mrp_never_replaced (atv : AppleTV) (p : Nat)
    (hreg : atv.get_service PROTOCOL_MRP = some (Service.mrp p))
    (adds : List Service) :
    (adds.foldl AppleTV.add_service atv).get_service PROTOCOL_MRP =
      some (Service.mrp p) := by
  induction adds generalizing atv with
  | nil => exact hreg
  | cons s rest ih => exact ih (atv.add_service s) (add_service_preserves_mrp atv s p hreg)

/-- Witness for C7: after registering `MrpService(49152)`, a DMAP service,
another MRP service and a `BaseService` under MRP are all thrown at the
device and the original entry survives. -/
theorem mrp_never_replaced_witness :
    ([DmapService.init (some "x") (some 3689), MrpService.init 50000,
        BaseService.init PROTOCOL_MRP 1].foldl AppleTV.add_service
      ((AppleTV.init "10.0.0.1" "tv" none).add_service
        (MrpService.init 49152))).get_service PROTOCOL_MRP =
      some (Service.mrp 49152) :=
  mrp_never_replaced
    ((AppleTV.init "10.0.0.1" "tv" none).add_service (MrpService.init 49152))
    49152 rfl
    [DmapService.init (some "x") (some 3689), MrpService.init 50000,
      BaseService.init PROTOCOL_MRP 1]

/-- The registry invariant of the spec: at most one service per protocol id
(no duplicate keys in the dict model) and every registered service's
`protocol` field equals the key it is stored under. -/
def RegistryInv (atv : AppleTV) : Prop :=
  (atv.services.map Prod.fst).Nodup ∧
  ∀ (P : Protocol) (s : Service), atv.get_service P = some s → s.protocol = P

theorem mem_keys_dictSet (d : List (Protocol × Service)) (k : Protocol) (v : Service)
    (a : Protocol) (h : a ∈ (dictSet d k v).map Prod.fst) :
    a ∈ d.map Prod.fst ∨ a = k := by
  induction d with
  | nil =>
      rw [show dictSet [] k v = [(k, v)] from rfl, List.map_singleton] at h
      exact Or.inr (List.mem_singleton.mp h)
  | cons kv rest ih =>
      obtain ⟨k1, v1⟩ := kv
      by_cases h1 : k1 = k
      · rw [show dictSet ((k1, v1) :: rest) k v = (k, v) :: rest from by
          simp [dictSet, h1], List.map_cons] at h
        rcases List.mem_cons.mp h with h2 | h2
        · exact Or.inr h2
        · exact Or.inl (by rw [List.map_cons]; exact List.mem_cons_of_mem k1 h2)
      · rw [show dictSet ((k1, v1) :: rest) k v = (k1, v1) :: dictSet rest k v from by
          simp [dictSet, h1], List.map_cons] at h
        rcases List.mem_cons.mp h with h2 | h2
        · exact Or.inl (by rw [List.map_cons, h2]; exact List.mem_cons_self k1 _)
        · rcases ih h2 with h3 | h3
          · exact Or.inl (by rw [List.map_cons]; exact List.mem_cons_of_mem k1 h3)
          · exact Or.inr h3

theorem nodup_keys_dictSet (d : List (Protocol × Service)) (k : Protocol) (v : Service)
    (h : (d.map Prod.fst).Nodup) : ((dictSet d k v).map Prod.fst).Nodup := by
  induction d with
  | nil =>
      rw [show dictSet [] k v = [(k, v)] from rfl, List.map_singleton]
      exact List.nodup_singleton k
  | cons kv rest ih =>
      obtain ⟨k1, v1⟩ := kv
      rw [List.map_cons, List.nodup_cons] at h
      obtain ⟨hnot, hrest⟩ := h
      by_cases h1 : k1 = k
      · subst h1
        rw [show dictSet ((k1, v1) :: rest) k1 v = (k1, v) :: rest from by
          simp [dictSet], List.map_cons, List.nodup_cons]
        exact ⟨hnot, hrest⟩
      · rw [show dictSet ((k1, v1) :: rest) k v = (k1, v1) :: dictSet rest k v from by
          simp [dictSet, h1], List.map_cons, List.nodup_cons]
        refine ⟨?_, ih hrest⟩
        intro hmem
        rcases mem_keys_dictSet rest k v k1 hmem with h2 | h2
        · exact hnot h2
        · exact h1 h2

theorem registryInv_set (atv : AppleTV) (s : Service)
    (h1 : (atv.services.map Prod.fst).Nodup)
    (h2 : ∀ (P : Protocol) (t : Service), atv.get_service P = some t → t.protocol = P) :
    RegistryInv { atv with services := dictSet atv.services s.protocol s } := by
  constructor
  · exact nodup_keys_dictSet atv.services s.protocol s h1
  · intro P t hget
    unfold AppleTV.get_service at hget
    by_cases hP : P = s.protocol
    · subst hP
      rw [dictGet_dictSet_self] at hget
      cases hget
      rfl
    · rw [dictGet_dictSet_ne _ _ _ _ hP] at hget
      exact h2 P t hget

theorem registryInv_add (atv : AppleTV) (s : Service) (h : RegistryInv atv) :
    RegistryInv (atv.add_service s) := by
  obtain ⟨h1, h2⟩ := h
  cases hd : dictGet atv.services s.protocol with
  | none =>
      rw [add_service_not_registered atv s hd]
      exact registryInv_set atv s h1 h2
  | some existing =>
      rw [add_service_registered atv s existing hd]
      by_cases hs : existing.superseeded_by s
      · simp only [hs, if_true]
        exact registryInv_set atv s h1 h2
      · simp only [hs, if_false, Bool.false_eq_true]
        exact ⟨h1, h2⟩

theorem registryInv_foldl (adds : List Service) (atv : AppleTV) (h : RegistryInv atv) :
    RegistryInv (adds.foldl AppleTV.add_service atv) := by
  induction adds generalizing atv with
  | nil => exact h
  | cons s rest ih => exact ih (atv.add_service s) (registryInv_add atv s h)

/-- C8: starting from a freshly constructed device (empty registry), every
sequence of operations preserves the registry invariant: at most one
service per protocol id, and each registered service's `protocol` field
equals the key it is stored under. `add_service` is the only mutating
operation of the component; all other operations are read-only. -/
theorem registry_invariant (address name : String) (supported : Option (List Protocol))
    (adds : List Service) :
    RegistryInv (adds.foldl AppleTV.add_service (AppleTV.init address name supported)) := by
  apply registryInv_foldl
  constructor
  · simp [AppleTV.init]
  · intro P s h
    simp [AppleTV.init, AppleTV.get_service, dictGet] at h

/-- C9: two devices compare equal exactly when their `address` fields are
equal; `name`, the registry and the preference list play no role. In
particular `AppleTV("10.0.0.1","A") == AppleTV("10.0.0.1","B")` and
`AppleTV("10.0.0.1","A") != AppleTV("10.0.0.2","A")`. -/
theorem device_eq_iff_address :
    (∀ d1 d2 : AppleTV, AppleTV.eq d1 d2 = true ↔ d1.address = d2.address) ∧
    (∀ (a n1 n2 : String) (sv1 sv2 : List (Protocol × Service)) (sp1 sp2 : List Protocol),
      AppleTV.eq ⟨a, n1, sv1, sp1⟩ ⟨a, n2, sv2, sp2⟩ = true) ∧
    AppleTV.eq (AppleTV.init "10.0.0.1" "A" none) (AppleTV.init "10.0.0.1" "B" none) = true ∧
    AppleTV.eq (AppleTV.init "10.0.0.1" "A" none) (AppleTV.init "10.0.0.2" "A" none) = false := by
  refine ⟨?_, ?_, rfl, ?_⟩
  · intro d1 d2
    simp [AppleTV.eq]
  · intro a n1 n2 sv1 sv2 sp1 sp2
    simp [AppleTV.eq]
  · decide

/-- C10: a `DmapService` constructed with the empty string as credential is
reported usable (`is_usable` checks `login_id is not None`) yet can still
be superseded: a same-variant, same-port candidate with a non-empty
credential replaces it, because `superseeded_by` tests Python truthiness of
the credential and treats `''` as no credential. -/
theorem dmap_empty_credential :
    (∀ p : Nat, (DmapService.init (some "") (some p)).is_usable = true) ∧
    (∀ (p : Nat) (c : String), c ≠ "" →
      (DmapService.init (some "") (some p)).superseeded_by
        (DmapService.init (some c) (some p)) = true) ∧
    (∀ (atv : AppleTV) (p : Nat) (c : String),
      atv.get_service PROTOCOL_DMAP = none → c ≠ "" →
      ((atv.add_service (DmapService.init (some "") (some p))).add_service
          (DmapService.init (some c) (some p))).get_service PROTOCOL_DMAP =
        some (DmapService.init (some c) (some p))) := by
  refine ⟨?_, ?_, ?_⟩
  · intro p
    rfl
  · intro p c hc
    simp [DmapService.init, Service.superseeded_by, strTruthy, hc]
  · intro atv p c h hc
    have := dmap_double_add atv (some "") (some c) (if p == 0 then 3689 else p) h
    simpa [DmapService.init, strTruthy, hc] using this

/-- Witness for C10 at port 3000 and credential `"x"`: the empty-credential
service is usable, is superseded by the `"x"` candidate, and the registry
entry is actually replaced. -/
theorem dmap_empty_credential_witness :
    ((DmapService.init (some "") (some 3000)).is_usable = true) ∧
    ((DmapService.init (some "") (some 3000)).superseeded_by
      (DmapService.init (some "x") (some 3000)) = true) ∧
    ((((AppleTV.init "10.0.0.1" "tv" none).add_service
        (DmapService.init (some "") (some 3000))).add_service
        (DmapService.init (some "x") (some 3000))).get_service PROTOCOL_DMAP =
      some (DmapService.init (some "x") (some 3000))) :=
  ⟨dmap_empty_credential.1 3000,
   dmap_empty_credential.2.1 3000 "x" (by decide),
   dmap_empty_credential.2.2 (AppleTV.init "10.0.0.1" "tv" none) 3000 "x" rfl (by decide)⟩

end PyatvConf
